import Mathlib

/-!
Verification of the datagov-mcp-server dispatcher (src/index.ts).

This file gives a shallow embedding of the observable behaviour of the
Data.gov MCP server: JSON values, the pretty-printer used on success
responses (`JSON.stringify(data, null, 2)`), a JSON parser (to state the
round-trip property of the printed text), the argument validators, the tool
dispatcher (`CallToolRequestSchema` handler), the axios error summarizer
`handleAxiosError`, and the resource-read handler with its percent-decoding
and base64 data-URI encoding.  Network effects are modelled by passing the
outcome of the (single possible) outbound HTTP call as an explicit argument
and returning the list of requests that were issued.

Definitions come first (the embedding of src/index.ts and of the runtime
functions it calls), followed by the theorems: supporting lemmas, then one
theorem per claim with its witness.
-/

set_option maxRecDepth 10000

/-- JSON values, as produced by the remote API and consumed by
`JSON.stringify`.  Numbers are modelled by the integer fragment. -/
inductive Json where
  | null : Json
  | bool : Bool → Json
  | num : Int → Json
  | str : String → Json
  | arr : List Json → Json
  | obj : List (String × Json) → Json
deriving Repr

/-- The decimal digit character for `d < 10`. -/
def digCh (d : Nat) : Char := Char.ofNat (48 + d)

/-- Decimal digits with explicit fuel (structural, so it reduces). -/
def natCharsAux : Nat → Nat → List Char
  | 0, n => [digCh n]
  | fuel + 1, n =>
    if n < 10 then [digCh n]
    else natCharsAux fuel (n / 10) ++ [digCh (n % 10)]

/-- Decimal digits of a natural number, most significant first. -/
def natChars (n : Nat) : List Char := natCharsAux n n

/-- Decimal representation of an integer, as printed by `JSON.stringify`. -/
def intChars : Int → List Char
  | .ofNat n => natChars n
  | .negSucc m => '-' :: natChars (m + 1)

/-- Hexadecimal digit character (lowercase), for `n < 16`. -/
def hexDig (n : Nat) : Char :=
  if n < 10 then Char.ofNat (48 + n) else Char.ofNat (87 + n)

/-- How `JSON.stringify` escapes one character inside a string literal. -/
def escChar (c : Char) : List Char :=
  if c = '"' then ['\\', '"']
  else if c = '\\' then ['\\', '\\']
  else if c = '\x08' then ['\\', 'b']
  else if c = '\x09' then ['\\', 't']
  else if c = '\x0a' then ['\\', 'n']
  else if c = '\x0c' then ['\\', 'f']
  else if c = '\x0d' then ['\\', 'r']
  else if c.toNat < 32 then
    ['\\', 'u', '0', '0', hexDig (c.toNat / 16), hexDig (c.toNat % 16)]
  else [c]

/-- Escape every character of a string body. -/
def escList : List Char → List Char
  | [] => []
  | c :: cs => escChar c ++ escList cs

/-- A quoted, escaped JSON string literal. -/
def escString (s : List Char) : List Char := '"' :: escList s ++ ['"']

/-- The two-space gap passed to `JSON.stringify(data, null, 2)`. -/
def twoSpaceGap : List Char := [' ', ' ']

mutual
/-- Characters of `JSON.stringify(v, null, 2)` at indentation `ind`. -/
def printVal (ind : List Char) : Json → List Char
  | .null => "null".data
  | .bool true => "true".data
  | .bool false => "false".data
  | .num i => intChars i
  | .str s => escString s.data
  | .arr [] => ['[', ']']
  | .arr (x :: xs) =>
    '[' :: '\n' :: (ind ++ twoSpaceGap) ++ printVal (ind ++ twoSpaceGap) x ++
      printItemsRest (ind ++ twoSpaceGap) xs ++ '\n' :: ind ++ [']']
  | .obj [] => ['\x7b', '\x7d']
  | .obj (f :: fs) =>
    '\x7b' :: '\n' :: (ind ++ twoSpaceGap) ++ printField (ind ++ twoSpaceGap) f ++
      printFieldsRest (ind ++ twoSpaceGap) fs ++ '\n' :: ind ++ ['\x7d']
termination_by structural v => v

/-- Remaining array items, each preceded by `",\n" ++ ind`. -/
def printItemsRest (ind : List Char) : List Json → List Char
  | [] => []
  | x :: xs => ',' :: '\n' :: ind ++ printVal ind x ++ printItemsRest ind xs
termination_by structural l => l

/-- One object member: quoted key, `": "`, value. -/
def printField (ind : List Char) : String × Json → List Char
  | (k, v) => escString k.data ++ ':' :: ' ' :: printVal ind v
termination_by structural p => p

/-- Remaining object members, each preceded by `",\n" ++ ind`. -/
def printFieldsRest (ind : List Char) : List (String × Json) → List Char
  | [] => []
  | f :: fs => ',' :: '\n' :: ind ++ printField ind f ++ printFieldsRest ind fs
termination_by structural l => l
end

/-- Model of `JSON.stringify(v, null, 2)`, the text placed in success envelopes. -/
def stringify (v : Json) : String := String.mk (printVal [] v)

/-- JSON insignificant whitespace. -/
def isWsChar (c : Char) : Bool := c = ' ' || c = '\n' || c = '\t' || c = '\r'

/-- Drop leading insignificant whitespace. -/
def skipWs : List Char → List Char
  | [] => []
  | c :: r => if isWsChar c then skipWs r else c :: r

/-- Value of a hexadecimal digit character. -/
def hexVal (c : Char) : Option Nat :=
  if '0' ≤ c ∧ c ≤ '9' then some (c.toNat - 48)
  else if 'a' ≤ c ∧ c ≤ 'f' then some (c.toNat - 87)
  else if 'A' ≤ c ∧ c ≤ 'F' then some (c.toNat - 55)
  else none

/-- The character denoted by a single-character JSON escape. -/
def escapeCharFor (e : Char) : Option Char :=
  if e = '"' then some '"'
  else if e = '\\' then some '\\'
  else if e = '/' then some '/'
  else if e = 'b' then some '\x08'
  else if e = 'f' then some '\x0c'
  else if e = 'n' then some '\x0a'
  else if e = 'r' then some '\x0d'
  else if e = 't' then some '\x09'
  else none

/-- Parse the body of a string literal after the opening quote; returns the
decoded characters and the input remaining after the closing quote. -/
def parseStringBody : List Char → Option (List Char × List Char)
  | [] => none
  | c :: r =>
    if c = '"' then some ([], r)
    else if c = '\\' then
      match r with
      | [] => none
      | e :: r2 =>
        if e = 'u' then
          match r2 with
          | h1 :: h2 :: h3 :: h4 :: r3 =>
            match hexVal h1, hexVal h2, hexVal h3, hexVal h4 with
            | some a, some b, some c2, some d =>
              match parseStringBody r3 with
              | some (cs, r4) =>
                some (Char.ofNat (4096 * a + 256 * b + 16 * c2 + d) :: cs, r4)
              | none => none
            | _, _, _, _ => none
          | _ => none
        else
          match escapeCharFor e with
          | some ec =>
            match parseStringBody r2 with
            | some (cs, r3) => some (ec :: cs, r3)
            | none => none
          | none => none
    else if c.toNat < 32 then none
    else
      match parseStringBody r with
      | some (cs, r2) => some (c :: cs, r2)
      | none => none

/-- Greedily parse decimal digits onto an accumulator. -/
def parseNatAcc : List Char → Nat → Nat × List Char
  | [], acc => (acc, [])
  | c :: r, acc =>
    if c.isDigit then parseNatAcc r (10 * acc + (c.toNat - 48)) else (acc, c :: r)

/-- Check that the input starts with the given literal characters. -/
def expectChars : List Char → List Char → Option (List Char)
  | [], s => some s
  | p :: ps, c :: cs => if c = p then expectChars ps cs else none
  | _ :: _, [] => none

mutual
/-- Parse one JSON value (leading whitespace allowed). -/
def parseVal : Nat → List Char → Option (Json × List Char)
  | 0, _ => none
  | f + 1, s =>
    match skipWs s with
    | [] => none
    | c :: r =>
      if c = 'n' then
        match expectChars "ull".data r with
        | some r' => some (.null, r')
        | none => none
      else if c = 't' then
        match expectChars "rue".data r with
        | some r' => some (.bool true, r')
        | none => none
      else if c = 'f' then
        match expectChars "alse".data r with
        | some r' => some (.bool false, r')
        | none => none
      else if c = '"' then
        match parseStringBody r with
        | some (cs, r') => some (.str (String.mk cs), r')
        | none => none
      else if c = '[' then
        match skipWs r with
        | [] => none
        | c2 :: r2 =>
          if c2 = ']' then some (.arr [], r2)
          else
            match parseItems f (c2 :: r2) with
            | some (vs, r3) => some (.arr vs, r3)
            | none => none
      else if c = '\x7b' then
        match skipWs r with
        | [] => none
        | c2 :: r2 =>
          if c2 = '\x7d' then some (.obj [], r2)
          else
            match parseFields f (c2 :: r2) with
            | some (fs, r3) => some (.obj fs, r3)
            | none => none
      else if c = '-' then
        match r with
        | [] => none
        | c2 :: r2 =>
          if c2.isDigit then
            let p := parseNatAcc r2 (c2.toNat - 48)
            some (.num (-(p.1 : Int)), p.2)
          else none
      else if c.isDigit then
        let p := parseNatAcc r (c.toNat - 48)
        some (.num (p.1 : Int), p.2)
      else none

/-- Parse the items of a non-empty array, including the closing bracket. -/
def parseItems : Nat → List Char → Option (List Json × List Char)
  | 0, _ => none
  | f + 1, s =>
    match parseVal f s with
    | none => none
    | some (v, r) =>
      match skipWs r with
      | [] => none
      | c :: r' =>
        if c = ',' then
          match parseItems f r' with
          | some (vs, r2) => some (v :: vs, r2)
          | none => none
        else if c = ']' then some ([v], r')
        else none

/-- Parse the members of a non-empty object, including the closing brace. -/
def parseFields : Nat → List Char → Option (List (String × Json) × List Char)
  | 0, _ => none
  | f + 1, s =>
    match skipWs s with
    | [] => none
    | c :: r =>
      if c = '"' then
        match parseStringBody r with
        | none => none
        | some (k, r1) =>
          match skipWs r1 with
          | [] => none
          | c2 :: r2 =>
            if c2 = ':' then
              match parseVal f r2 with
              | none => none
              | some (v, r3) =>
                match skipWs r3 with
                | [] => none
                | c3 :: r4 =>
                  if c3 = ',' then
                    match parseFields f r4 with
                    | some (fs, r5) => some ((String.mk k, v) :: fs, r5)
                    | none => none
                  else if c3 = '\x7d' then some ([(String.mk k, v)], r4)
                  else none
            else none
      else none
end

/-- Parse a complete JSON document from characters. -/
def parseChars (cs : List Char) : Option Json :=
  match parseVal (cs.length + 1) cs with
  | some (v, r) => if skipWs r = [] then some v else none
  | none => none

/-- Model of `JSON.parse` (on the fragment produced by the printer). -/
def jsonParse (s : String) : Option Json := parseChars s.data

/-- True when the input does not continue with a decimal digit. -/
def noDigHead : List Char → Bool
  | [] => true
  | c :: _ => !c.isDigit

/-- Every character is insignificant whitespace. -/
def allWsChars : List Char → Bool
  | [] => true
  | c :: r => isWsChar c && allWsChars r

mutual
/-- Fuel needed by `parseVal` to consume the printed form of `v`. -/
def cost : Json → Nat
  | .null => 1
  | .bool _ => 1
  | .num _ => 1
  | .str _ => 1
  | .arr [] => 1
  | .arr (x :: xs) => 1 + costItems (x :: xs)
  | .obj [] => 1
  | .obj (f :: fs) => 1 + costFields (f :: fs)
termination_by structural v => v

/-- Fuel needed by `parseItems`. -/
def costItems : List Json → Nat
  | [] => 0
  | x :: xs => 1 + cost x + costItems xs
termination_by structural l => l

/-- Fuel needed by `parseFields`. -/
def costFields : List (String × Json) → Nat
  | [] => 0
  | (_, v) :: fs => 1 + cost v + costFields fs
termination_by structural l => l
end

/-- JS `typeof x` on an argument value. -/
def jsTypeof : Option Json → String
  | none => "undefined"
  | some .null => "object"
  | some (.bool _) => "boolean"
  | some (.num _) => "number"
  | some (.str _) => "string"
  | some (.arr _) => "object"
  | some (.obj _) => "object"

/-- JS `x === null`. -/
def isJsNull : Option Json → Bool
  | some .null => true
  | _ => false

/-- First binding of a key in an object. -/
def lookupField : List (String × Json) → String → Option Json
  | [], _ => none
  | (k2, v) :: fs, k => if k2 = k then some v else lookupField fs k

/-- JS property access `x.k` (also models optional chaining `x?.k`):
data properties exist only on objects. -/
def jsGet : Option Json → String → Option Json
  | some (.obj fields), k => lookupField fields k
  | _, _ => none

/-- The per-field check `args.k === undefined || typeof args.k === t`. -/
def fieldUndefOr (args : Option Json) (k t : String) : Bool :=
  match jsGet args k with
  | none => true
  | some v => jsTypeof (some v) == t

/-- Validator `isValidPackageSearchArgs` (src/index.ts:32). -/
def isValidPackageSearchArgs (args : Option Json) : Bool :=
  jsTypeof args == "object" && !(isJsNull args) &&
  fieldUndefOr args "q" "string" && fieldUndefOr args "sort" "string" &&
  fieldUndefOr args "rows" "number" && fieldUndefOr args "start" "number"

/-- Validator `isValidPackageShowArgs` (src/index.ts:52). -/
def isValidPackageShowArgs (args : Option Json) : Bool :=
  jsTypeof args == "object" && !(isJsNull args) &&
  jsTypeof (jsGet args "id") == "string"

/-- Validator `isValidGroupListArgs` (src/index.ts:70). -/
def isValidGroupListArgs (args : Option Json) : Bool :=
  jsTypeof args == "object" && !(isJsNull args) &&
  fieldUndefOr args "order_by" "string" && fieldUndefOr args "limit" "number" &&
  fieldUndefOr args "offset" "number" && fieldUndefOr args "all_fields" "boolean"

/-- Validator `isValidTagListArgs` (src/index.ts:91). -/
def isValidTagListArgs (args : Option Json) : Bool :=
  jsTypeof args == "object" && !(isJsNull args) &&
  fieldUndefOr args "query" "string" && fieldUndefOr args "all_fields" "boolean"

/-- MCP protocol error codes used by the server. -/
inductive ErrorCode where
  | invalidRequest
  | invalidParams
  | methodNotFound
deriving DecidableEq, Repr

/-- Protocol error (`McpError`) as thrown by the handlers. -/
structure McpError where
  code : ErrorCode
  message : String
deriving DecidableEq, Repr

/-- One content block of a tool response. -/
structure ContentBlock where
  type : String
  text : String
deriving DecidableEq, Repr

/-- The uniform tool-response envelope; `isError` is false when the field is
absent in the source object literal. -/
structure ToolResponse where
  content : List ContentBlock
  isError : Bool
deriving DecidableEq, Repr

/-- An outbound HTTP GET (url and query params). -/
structure HttpRequest where
  url : String
  params : Option Json
deriving Repr

/-- The `response` field of an axios error: HTTP status and parsed body
(`none` when the body is empty/undefined). -/
structure AxiosResponse where
  status : Nat
  data : Option Json
deriving Repr

/-- An axios rejection: transport message, optional server response, and
whether a request object exists (request sent but no response received). -/
structure AxiosErrorInfo where
  message : String
  response : Option AxiosResponse
  requestMade : Bool
deriving Repr

/-- What a `catch` block receives. -/
inductive Caught where
  | axios (e : AxiosErrorInfo)
  | other (display : String)
deriving Repr

/-- Outcome of the single outbound HTTP call of a query operation. -/
inductive CallOutcome where
  | ok (data : Json)
  | exn (e : Caught)
deriving Repr

/-- JS truthiness of a JSON value. -/
def jsTruthy : Json → Bool
  | .null => false
  | .bool b => b
  | .num i => !(i == 0)
  | .str s => !(s == "")
  | .arr _ => true
  | .obj _ => true

/-- Truthiness of a possibly-undefined value. -/
def truthyOpt : Option Json → Bool
  | none => false
  | some v => jsTruthy v

/-- JS `typeof data === 'string'`. -/
def isJsString : Json → Bool
  | .str _ => true
  | _ => false

mutual
/-- JS string coercion of a JSON value, as interpolated by a template
literal: strings verbatim, arrays joined with "," (null elements empty),
objects as "[object Object]". -/
def jsDisplay : Json → String
  | .null => "null"
  | .bool true => "true"
  | .bool false => "false"
  | .num i => String.mk (intChars i)
  | .str s => s
  | .arr [] => ""
  | .arr (x :: xs) =>
    (match x with
     | .null => ""
     | _ => jsDisplay x) ++ jsDisplayRest xs
  | .obj _ => "[object Object]"
termination_by structural v => v

/-- Remaining array elements in JS array-to-string coercion. -/
def jsDisplayRest : List Json → String
  | [] => ""
  | x :: xs =>
    "," ++ (match x with
            | .null => ""
            | _ => jsDisplay x) ++ jsDisplayRest xs
termination_by structural l => l
end

/-- Interpolation of a value known to be present. -/
def displayOpt : Option Json → String
  | some v => jsDisplay v
  | none => "undefined"

/-- Summarizer `handleAxiosError` (src/index.ts:385): build the failure envelope. -/
def handleAxiosError (error : Caught) : ToolResponse :=
  match error with
  | .axios axiosError =>
    let m0 := "Data.gov API error: " ++ axiosError.message
    let msg :=
      match axiosError.response with
      | some resp =>
        let m1 := m0 ++ "\nStatus: " ++ toString resp.status
        match resp.data with
        | some d =>
          if jsTruthy d then
            let errField := jsGet (some d) "error"
            let msgField := jsGet errField "message"
            if truthyOpt msgField then
              m1 ++ "\nMessage: " ++ displayOpt msgField
            else if truthyOpt errField then
              m1 ++ "\nMessage: " ++ displayOpt errField
            else if isJsString d then
              m1 ++ "\nData: " ++ jsDisplay d
            else m1
          else m1
        | none => m1
      | none =>
        if axiosError.requestMade then
          m0 ++ "\nNo response received from the server."
        else m0
    { content := [{ type := "text", text := msg }], isError := true }
  | .other display =>
    { content := [{ type := "text",
                    text := "An unexpected error occurred: " ++ display }],
      isError := true }

/-- The fixed remote API base URL. -/
def BASE_URL : String := "https://catalog.data.gov/api/3"

/-- Tool method `packageSearch` (src/index.ts:309): GET /action/package_search with the
argument bag as query params; success wraps the pretty-printed body, failure
returns the summarized envelope. -/
def packageSearch (args : Option Json) (net : CallOutcome) :
    ToolResponse × List HttpRequest :=
  let req : HttpRequest := { url := BASE_URL ++ "/action/package_search", params := args }
  match net with
  | .ok data =>
    ({ content := [{ type := "text", text := stringify data }], isError := false }, [req])
  | .exn e => (handleAxiosError e, [req])

/-- Tool method `packageShow` (src/index.ts:329): GET /action/package_show with
`params: { id: args.id }`. -/
def packageShow (args : Option Json) (net : CallOutcome) :
    ToolResponse × List HttpRequest :=
  let req : HttpRequest :=
    { url := BASE_URL ++ "/action/package_show",
      params := some (.obj (match jsGet args "id" with
        | some v => [("id", v)]
        | none => [])) }
  match net with
  | .ok data =>
    ({ content := [{ type := "text", text := stringify data }], isError := false }, [req])
  | .exn e => (handleAxiosError e, [req])

/-- Tool method `groupList` (src/index.ts:349): GET /action/group_list. -/
def groupList (args : Option Json) (net : CallOutcome) :
    ToolResponse × List HttpRequest :=
  let req : HttpRequest := { url := BASE_URL ++ "/action/group_list", params := args }
  match net with
  | .ok data =>
    ({ content := [{ type := "text", text := stringify data }], isError := false }, [req])
  | .exn e => (handleAxiosError e, [req])

/-- Tool method `tagList` (src/index.ts:367): GET /action/tag_list. -/
def tagList (args : Option Json) (net : CallOutcome) :
    ToolResponse × List HttpRequest :=
  let req : HttpRequest := { url := BASE_URL ++ "/action/tag_list", params := args }
  match net with
  | .ok data =>
    ({ content := [{ type := "text", text := stringify data }], isError := false }, [req])
  | .exn e => (handleAxiosError e, [req])

/-- The `CallToolRequestSchema` handler (src/index.ts:261): switch on the
tool name, validate the arguments, dispatch; `Except.error` models a thrown
`McpError`.  The second component lists the HTTP requests issued. -/
def callTool (name : String) (args : Option Json) (net : CallOutcome) :
    Except McpError ToolResponse × List HttpRequest :=
  if name == "package_search" then
    if isValidPackageSearchArgs args then
      let r := packageSearch args net
      (.ok r.1, r.2)
    else (.error ⟨.invalidParams, "Invalid package_search arguments"⟩, [])
  else if name == "package_show" then
    if isValidPackageShowArgs args then
      let r := packageShow args net
      (.ok r.1, r.2)
    else (.error ⟨.invalidParams, "Invalid package_show arguments"⟩, [])
  else if name == "group_list" then
    if isValidGroupListArgs args then
      let r := groupList args net
      (.ok r.1, r.2)
    else (.error ⟨.invalidParams, "Invalid group_list arguments"⟩, [])
  else if name == "tag_list" then
    if isValidTagListArgs args then
      let r := tagList args net
      (.ok r.1, r.2)
    else (.error ⟨.invalidParams, "Invalid tag_list arguments"⟩, [])
  else (.error ⟨.methodNotFound, "Unknown tool: " ++ name⟩, [])

/-- JS line terminators, which `.` in a regex does not match. -/
def isLineTerm (c : Char) : Bool :=
  c = '\n' || c = '\r' || c.toNat == 0x2028 || c.toNat == 0x2029

/-- Strip a literal prefix. -/
def stripPrefixChars : List Char → List Char → Option (List Char)
  | [], s => some s
  | p :: ps, c :: cs => if c = p then stripPrefixChars ps cs else none
  | _ :: _, [] => none

/-- The regex match `uri.match(/^datagov:\/\/resource\/(.+)$/)`: the captured
suffix must be non-empty and free of line terminators. -/
def uriMatch (uri : String) : Option (List Char) :=
  match stripPrefixChars "datagov://resource/".data uri.data with
  | some suf =>
    if !suf.isEmpty && suf.all (fun c => !isLineTerm c) then some suf else none
  | none => none

/-- Model of `decodeURIComponent` on its single-byte fragment: a `%hh`
escape below 0x80 decodes to the corresponding ASCII character; malformed
escapes raise `URIError` (`none`); multi-byte UTF-8 sequences are outside
the model. -/
def percentDecode : List Char → Option (List Char)
  | [] => some []
  | '%' :: h1 :: h2 :: r =>
    match hexVal h1, hexVal h2 with
    | some a, some b =>
      if 16 * a + b < 128 then
        match percentDecode r with
        | some cs => some (Char.ofNat (16 * a + b) :: cs)
        | none => none
      else none
    | _, _ => none
  | '%' :: _ => none
  | c :: r =>
    match percentDecode r with
    | some cs => some (c :: cs)
    | none => none

/-- The base64 alphabet. -/
def b64Chars : List Char :=
  ['A', 'B', 'C', 'D', 'E', 'F', 'G', 'H', 'I', 'J', 'K', 'L', 'M',
   'N', 'O', 'P', 'Q', 'R', 'S', 'T', 'U', 'V', 'W', 'X', 'Y', 'Z',
   'a', 'b', 'c', 'd', 'e', 'f', 'g', 'h', 'i', 'j', 'k', 'l', 'm',
   'n', 'o', 'p', 'q', 'r', 's', 't', 'u', 'v', 'w', 'x', 'y', 'z',
   '0', '1', '2', '3', '4', '5', '6', '7', '8', '9', '+', '/']

/-- The base64 digit for a 6-bit group. -/
def b64Char (n : Nat) : Char := b64Chars.getD n 'A'

/-- Position of a character in the base64 alphabet. -/
def b64IndexAux : List Char → Char → Nat → Option Nat
  | [], _, _ => none
  | c2 :: cs, c, i => if c2 = c then some i else b64IndexAux cs c (i + 1)

/-- Inverse base64 digit lookup. -/
def b64Index (c : Char) : Option Nat := b64IndexAux b64Chars c 0

/-- Base64 encoding of a byte sequence (`Buffer.toString('base64')`),
three bytes at a time with `=` padding. -/
def base64Chars : List Nat → List Char
  | [] => []
  | [b1] => [b64Char (b1 / 4), b64Char (b1 % 4 * 16), '=', '=']
  | [b1, b2] =>
    [b64Char (b1 / 4), b64Char (b1 % 4 * 16 + b2 / 16), b64Char (b2 % 16 * 4), '=']
  | b1 :: b2 :: b3 :: bs =>
    b64Char (b1 / 4) :: b64Char (b1 % 4 * 16 + b2 / 16) ::
      b64Char (b2 % 16 * 4 + b3 / 64) :: b64Char (b3 % 64) :: base64Chars bs

/-- Base64 encoding as a string. -/
def base64Encode (bs : List Nat) : String := String.mk (base64Chars bs)

/-- Base64 decoding, four characters at a time. -/
def base64DecodeChars : List Char → Option (List Nat)
  | [] => some []
  | c1 :: c2 :: c3 :: c4 :: r =>
    match b64Index c1, b64Index c2 with
    | some i1, some i2 =>
      if c3 = '=' then
        if c4 = '=' ∧ r = [] then some [i1 * 4 + i2 / 16] else none
      else
        match b64Index c3 with
        | some i3 =>
          if c4 = '=' then
            if r = [] then some [i1 * 4 + i2 / 16, i2 % 16 * 16 + i3 / 4] else none
          else
            match b64Index c4 with
            | some i4 =>
              match base64DecodeChars r with
              | some bs =>
                some ((i1 * 4 + i2 / 16) :: (i2 % 16 * 16 + i3 / 4) ::
                  (i3 % 4 * 64 + i4) :: bs)
              | none => none
            | none => none
        | none => none
    | _, _ => none
  | _ => none

/-- Base64 decoding of a string. -/
def base64Decode (s : String) : Option (List Nat) := base64DecodeChars s.data

/-- Outcome of the resource GET (content-type header and body bytes). -/
inductive ResourceOutcome where
  | ok (contentType : String) (body : List Nat)
  | exn (e : Caught)
deriving Repr

/-- One entry of a resource-read result. -/
structure ResourceContents where
  uri : String
  text : String
deriving DecidableEq, Repr

/-- How the resource-read handler fails at the protocol level. -/
inductive ReadError where
  | mcp (e : McpError)
  | uriError
  | rethrown (e : Caught)
deriving Repr

/-- The `ReadResourceRequestSchema` handler (src/index.ts:153): match the
URI, decode the target URL, GET it; on success return a base64 `data:` URI,
on failure summarize via `handleAxiosError` (result discarded) and re-throw
the original error. -/
def readResource (uri : String) (net : ResourceOutcome) :
    Except ReadError (List ResourceContents) × List HttpRequest :=
  match uriMatch uri with
  | none => (.error (.mcp ⟨.invalidRequest, "Invalid URI format: " ++ uri⟩), [])
  | some suf =>
    match percentDecode suf with
    | none => (.error .uriError, [])
    | some urlChars =>
      let url := String.mk urlChars
      let req : HttpRequest := { url := url, params := none }
      match net with
      | .ok contentType body =>
        (.ok [{ uri := uri,
                text := "data:" ++ contentType ++ ";base64," ++ base64Encode body }],
         [req])
      | .exn e =>
        let _ := handleAxiosError e
        (.error (.rethrown e), [req])

/-- One property of a tool input schema. -/
structure SchemaProperty where
  name : String
  type : String
  description : String
deriving DecidableEq, Repr

/-- One advertised tool: name, description, object schema. -/
structure ToolDescriptor where
  name : String
  description : String
  properties : List SchemaProperty
  required : List String
deriving DecidableEq, Repr

/-- The static catalog returned by the `ListToolsRequestSchema` handler.
The handler closes over no state, so repeated calls return this constant. -/
def listTools : List ToolDescriptor :=
  [{ name := "package_search",
     description := "Search for packages (datasets) on Data.gov",
     properties :=
       [{ name := "q", type := "string", description := "Search query" },
        { name := "sort", type := "string",
          description := "Sort order (e.g., \"score desc, name asc\")" },
        { name := "rows", type := "number",
          description := "Number of results per page" },
        { name := "start", type := "number",
          description := "Starting offset for results" }],
     required := [] },
   { name := "package_show",
     description := "Get details for a specific package (dataset)",
     properties :=
       [{ name := "id", type := "string", description := "Package ID or name" }],
     required := ["id"] },
   { name := "group_list",
     description := "List groups on Data.gov",
     properties :=
       [{ name := "order_by", type := "string", description := "Field to order by" },
        { name := "limit", type := "number",
          description := "Maximum number of results" },
        { name := "offset", type := "number", description := "Offset for results" },
        { name := "all_fields", type := "boolean", description := "Return all fields" }],
     required := [] },
   { name := "tag_list",
     description := "List tags on Data.gov",
     properties :=
       [{ name := "query", type := "string", description := "Search query for tags" },
        { name := "all_fields", type := "boolean", description := "Return all fields" }],
     required := [] }]

/-- A sample CKAN-style response body used by the witnesses. -/
def ckanSample : Json :=
  .obj [("success", .bool true),
        ("result", .arr [.num 42, .num (-7), .str "dataset \"x\"\n", .null,
                          .obj [("count", .num 0)], .arr []])]

theorem natCharsAux_fuel_irrel :
    ∀ f1 f2 n, n ≤ f1 → n ≤ f2 → natCharsAux f1 n = natCharsAux f2 n := by
  intro f1
  induction f1 with
  | zero =>
    intro f2 n h1 _
    interval_cases n
    cases f2
    · simp [natCharsAux]
    · simp [natCharsAux]
  | succ f ih =>
    intro f2 n h1 h2
    match f2, h2 with
    | 0, h2 =>
      interval_cases n
      simp [natCharsAux]
    | f2 + 1, h2 =>
      simp only [natCharsAux]
      by_cases hn : n < 10
      · simp [hn]
      · have hlt : n / 10 < n := Nat.div_lt_self (by omega) (by omega)
        simp only [hn, if_false]
        rw [ih f2 (n / 10) (by omega) (by omega)]

/-- The defining unfolding of `natChars`. -/
theorem natChars_eq (n : Nat) :
    natChars n = if n < 10 then [digCh n] else natChars (n / 10) ++ [digCh (n % 10)] := by
  unfold natChars
  cases n with
  | zero => simp [natCharsAux]
  | succ m =>
    simp only [natCharsAux]
    by_cases hn : m + 1 < 10
    · simp [hn]
    · simp only [hn, if_false]
      rw [natCharsAux_fuel_irrel m ((m + 1) / 10) ((m + 1) / 10) (by omega) (by omega)]

theorem digCh_spec : ∀ d, d < 10 → ((digCh d).isDigit = true ∧ (digCh d).toNat = 48 + d) := by
  decide

theorem natChars_head :
    ∀ n, ∃ c cs, natChars n = c :: cs ∧ c.isDigit = true := by
  intro n
  induction n using Nat.strong_induction_on with
  | _ n ih =>
    rw [natChars_eq]
    by_cases h : n < 10
    · exact ⟨digCh n, [], by simp [h], (digCh_spec n h).1⟩
    · obtain ⟨c, cs, hc, hd⟩ := ih (n / 10) (Nat.div_lt_self (by omega) (by omega))
      exact ⟨c, cs ++ [digCh (n % 10)], by simp [h, hc], hd⟩

theorem parseNatAcc_stop (rest : List Char) (acc : Nat) (h : noDigHead rest = true) :
    parseNatAcc rest acc = (acc, rest) := by
  cases rest with
  | nil => rfl
  | cons c r =>
    simp only [noDigHead, Bool.not_eq_true'] at h
    simp [parseNatAcc, h]

theorem parseNatAcc_natChars :
    ∀ n rest acc, parseNatAcc (natChars n ++ rest) acc =
      parseNatAcc rest (acc * 10 ^ (natChars n).length + n) := by
  intro n
  induction n using Nat.strong_induction_on with
  | _ n ih =>
    intro rest acc
    rw [natChars_eq]
    by_cases h : n < 10
    · simp only [h, if_true, List.cons_append, List.nil_append, List.length_singleton]
      rw [parseNatAcc.eq_def]
      simp only [if_pos (digCh_spec n h).1, (digCh_spec n h).2]
      congr 1
      rw [pow_one]
      omega
    · have hlt : n / 10 < n := Nat.div_lt_self (by omega) (by omega)
      simp only [h, if_false, List.append_assoc, List.cons_append, List.nil_append,
        List.length_append, List.length_singleton]
      rw [ih (n / 10) hlt, parseNatAcc.eq_def]
      simp only [if_pos (digCh_spec (n % 10) (by omega)).1,
        (digCh_spec (n % 10) (by omega)).2]
      congr 1
      rw [pow_succ, ← mul_assoc]
      have h10 : 10 * (n / 10) + n % 10 = n := Nat.div_add_mod n 10
      generalize acc * 10 ^ (natChars (n / 10)).length = X at *
      omega

/-- How the digit branch of `parseVal` consumes a printed natural number. -/
theorem parseNatAcc_natChars_full (n : Nat) (rest : List Char) (h : noDigHead rest = true) :
    parseNatAcc (natChars n ++ rest) 0 = (n, rest) := by
  rw [parseNatAcc_natChars, parseNatAcc_stop rest _ h]
  simp

theorem skipWs_ws_append (ws : List Char) (s : List Char) (h : allWsChars ws = true) :
    skipWs (ws ++ s) = skipWs s := by
  induction ws with
  | nil => rfl
  | cons c r ih =>
    simp only [allWsChars, Bool.and_eq_true] at h
    simp [skipWs, h.1, ih h.2]

theorem skipWs_cons_notWs (c : Char) (s : List Char) (h : isWsChar c = false) :
    skipWs (c :: s) = c :: s := by
  simp [skipWs, h]

theorem hexVal_hexDig : ∀ k, k < 16 → hexVal (hexDig k) = some k := by decide

theorem parseStringBody_escList :
    ∀ cs rest, parseStringBody (escList cs ++ '"' :: rest) = some (cs, rest) := by
  intro cs
  induction cs with
  | nil =>
    intro rest
    rw [escList, List.nil_append, parseStringBody.eq_def]
    simp
  | cons c cs ih =>
    intro rest
    simp only [escList, List.append_assoc]
    rw [escChar]
    by_cases h1 : c = '"'
    · subst h1
      simp only [if_pos rfl, List.cons_append, List.nil_append]
      rw [parseStringBody.eq_def]
      simp [escapeCharFor, ih]
    · rw [if_neg h1]
      by_cases h2 : c = '\\'
      · subst h2
        simp only [if_pos rfl, List.cons_append, List.nil_append]
        rw [parseStringBody.eq_def]
        simp [escapeCharFor, ih]
      · rw [if_neg h2]
        by_cases h3 : c = '\x08'
        · subst h3
          simp only [reduceIte, List.cons_append, List.nil_append]
          rw [parseStringBody.eq_def]
          simp [escapeCharFor, ih]
        · rw [if_neg h3]
          by_cases h4 : c = '\x09'
          · subst h4
            simp only [reduceIte, List.cons_append, List.nil_append]
            rw [parseStringBody.eq_def]
            simp [escapeCharFor, ih]
          · rw [if_neg h4]
            by_cases h5 : c = '\x0a'
            · subst h5
              simp only [reduceIte, List.cons_append, List.nil_append]
              rw [parseStringBody.eq_def]
              simp [escapeCharFor, ih]
            · rw [if_neg h5]
              by_cases h6 : c = '\x0c'
              · subst h6
                simp only [reduceIte, List.cons_append, List.nil_append]
                rw [parseStringBody.eq_def]
                simp [escapeCharFor, ih]
              · rw [if_neg h6]
                by_cases h7 : c = '\x0d'
                · subst h7
                  simp only [reduceIte, List.cons_append, List.nil_append]
                  rw [parseStringBody.eq_def]
                  simp [escapeCharFor, ih]
                · rw [if_neg h7]
                  by_cases h8 : c.toNat < 32
                  · rw [if_pos h8]
                    simp only [List.cons_append, List.nil_append]
                    rw [parseStringBody.eq_def]
                    simp only [reduceIte, reduceCtorEq]
                    rw [hexVal_hexDig (c.toNat / 16) (by omega),
                      hexVal_hexDig (c.toNat % 16) (by omega), ih]
                    have harith : 16 * (c.toNat / 16) + c.toNat % 16 = c.toNat := by omega
                    simp [hexVal, harith, Char.ofNat_toNat]
                  · rw [if_neg h8]
                    simp only [List.cons_append, List.nil_append]
                    rw [parseStringBody.eq_def]
                    simp [h1, h2, h8, ih]

theorem digit_notWs (c : Char) (h : c.isDigit = true) : isWsChar c = false := by
  by_contra hc
  simp only [Bool.not_eq_false, isWsChar, Bool.or_eq_true, decide_eq_true_eq] at hc
  rcases hc with ((h1 | h1) | h1) | h1 <;> subst h1 <;> revert h <;> decide

theorem digit_ne_starts (c : Char) (h : c.isDigit = true) :
    c ≠ 'n' ∧ c ≠ 't' ∧ c ≠ 'f' ∧ c ≠ '"' ∧ c ≠ '[' ∧ c ≠ '\x7b' ∧ c ≠ '-' ∧ c ≠ ']' := by
  refine ⟨?_, ?_, ?_, ?_, ?_, ?_, ?_, ?_⟩ <;> intro he <;> subst he <;> revert h <;> decide

/-- Printed values start with a character that is not whitespace and not a
closing bracket. -/
theorem printVal_head (ind : List Char) (v : Json) :
    ∃ c cs, printVal ind v = c :: cs ∧ isWsChar c = false ∧ c ≠ ']' ∧ c ≠ '\x7d' := by
  cases v with
  | null => exact ⟨'n', _, rfl, by decide, by decide, by decide⟩
  | bool b =>
    cases b
    · exact ⟨'f', _, rfl, by decide, by decide, by decide⟩
    · exact ⟨'t', _, rfl, by decide, by decide, by decide⟩
  | num i =>
    cases i with
    | ofNat n =>
      obtain ⟨c, cs, hc, hd⟩ := natChars_head n
      refine ⟨c, cs, by simpa [printVal, intChars] using hc, digit_notWs c hd, ?_, ?_⟩
      · exact (digit_ne_starts c hd).2.2.2.2.2.2.2
      · intro he
        subst he
        revert hd
        decide
    | negSucc m =>
      exact ⟨'-', natChars (m + 1), rfl, by decide, by decide, by decide⟩
  | str s =>
    exact ⟨'"', escList s.data ++ ['"'], rfl, by decide, by decide, by decide⟩
  | arr xs =>
    cases xs with
    | nil => exact ⟨'[', _, rfl, by decide, by decide, by decide⟩
    | cons x xs => exact ⟨'[', _, rfl, by decide, by decide, by decide⟩
  | obj fs =>
    cases fs with
    | nil => exact ⟨'\x7b', _, rfl, by decide, by decide, by decide⟩
    | cons f fs => exact ⟨'\x7b', _, rfl, by decide, by decide, by decide⟩

theorem allWsChars_append (a b : List Char) (ha : allWsChars a = true)
    (hb : allWsChars b = true) : allWsChars (a ++ b) = true := by
  induction a with
  | nil => exact hb
  | cons c r ih =>
    simp only [allWsChars, Bool.and_eq_true] at ha ⊢
    exact ⟨ha.1, ih ha.2⟩

theorem cost_pos (v : Json) : 1 ≤ cost v := by
  cases v with
  | arr xs => cases xs <;> simp [cost]
  | obj fs =>
    cases fs with
    | nil => simp [cost]
    | cons f fs => cases f; simp [cost]
  | null => simp [cost]
  | bool b => simp [cost]
  | num i => simp [cost]
  | str s => simp [cost]

mutual
theorem cost_le_printVal (ind : List Char) (v : Json) :
    cost v ≤ (printVal ind v).length := by
  cases v with
  | null => simp [cost, printVal]
  | bool b => cases b <;> simp [cost, printVal]
  | num i =>
    cases i with
    | ofNat n =>
      obtain ⟨c, cs, hc, _⟩ := natChars_head n
      simp [cost, printVal, intChars, hc]
    | negSucc m => simp [cost, printVal, intChars]
  | str s => simp [cost, printVal, escString]
  | arr xs =>
    cases xs with
    | nil => simp [cost, printVal]
    | cons x xs =>
      have h1 := cost_le_printVal (ind ++ twoSpaceGap) x
      have h2 := costItems_le_print (ind ++ twoSpaceGap) xs
      simp only [cost, costItems, printVal, List.length_cons, List.length_append]
      omega
  | obj fs =>
    cases fs with
    | nil => simp [cost, printVal]
    | cons f fs =>
      obtain ⟨k, v⟩ := f
      have h1 := cost_le_printVal (ind ++ twoSpaceGap) v
      have h2 := costFields_le_print (ind ++ twoSpaceGap) fs
      simp only [cost, costFields, printVal, printField, escString, List.length_cons,
        List.length_append]
      omega
termination_by structural v

theorem costItems_le_print (ind : List Char) (xs : List Json) :
    costItems xs ≤ (printItemsRest ind xs).length := by
  cases xs with
  | nil => simp [costItems, printItemsRest]
  | cons x xs =>
    have h1 := cost_le_printVal ind x
    have h2 := costItems_le_print ind xs
    simp only [costItems, printItemsRest, List.length_cons, List.length_append]
    omega
termination_by structural xs

theorem costFields_le_print (ind : List Char) (fs : List (String × Json)) :
    costFields fs ≤ (printFieldsRest ind fs).length := by
  cases fs with
  | nil => simp [costFields, printFieldsRest]
  | cons f fs =>
    obtain ⟨k, v⟩ := f
    have h1 := cost_le_printVal ind v
    have h2 := costFields_le_print ind fs
    simp only [costFields, printFieldsRest, printField, escString, List.length_cons,
      List.length_append]
    omega
termination_by structural fs
end

theorem strMk_data (s : String) : String.mk s.data = s := rfl

theorem parseNat_consume (n : Nat) (rest : List Char) (c : Char) (cs : List Char)
    (hc : natChars n = c :: cs) (hrest : noDigHead rest = true) :
    parseNatAcc (cs ++ rest) (c.toNat - 48) = (n, rest) := by
  have hd : c.isDigit = true := by
    obtain ⟨c', cs', hc', hd'⟩ := natChars_head n
    rw [hc] at hc'
    cases hc'
    exact hd'
  have h0 := parseNatAcc_natChars_full n rest hrest
  rw [hc, List.cons_append, parseNatAcc] at h0
  simp only [hd, if_true] at h0
  simpa using h0

theorem allWsChars_cons (c : Char) (l : List Char) (hc : isWsChar c = true)
    (hl : allWsChars l = true) : allWsChars (c :: l) = true := by
  simp [allWsChars, hc, hl]

theorem twoSpaceGap_ws : allWsChars twoSpaceGap = true := by decide

theorem skipWs_cons_ws (c : Char) (s : List Char) (h : isWsChar c = true) :
    skipWs (c :: s) = skipWs s := by
  simp [skipWs, h]

/-- Print–parse round trip, by induction on fuel: a printed value (possibly
preceded by whitespace, followed by a non-digit continuation) parses back to
itself, and likewise for the item and member lists of arrays and objects. -/
theorem parse_print_master : ∀ fuel : Nat,
    (∀ v ind ws rest, cost v ≤ fuel → allWsChars ws = true → allWsChars ind = true →
      noDigHead rest = true →
      parseVal fuel (ws ++ printVal ind v ++ rest) = some (v, rest)) ∧
    (∀ x xs ind1 ind2 ws rest, costItems (x :: xs) ≤ fuel → allWsChars ws = true →
      allWsChars ind1 = true → allWsChars ind2 = true → noDigHead rest = true →
      parseItems fuel (ws ++ printVal ind1 x ++ printItemsRest ind1 xs ++
        '\n' :: ind2 ++ ']' :: rest) = some (x :: xs, rest)) ∧
    (∀ k v fs ind1 ind2 ws rest, costFields ((k, v) :: fs) ≤ fuel →
      allWsChars ws = true → allWsChars ind1 = true → allWsChars ind2 = true →
      noDigHead rest = true →
      parseFields fuel (ws ++ printField ind1 (k, v) ++ printFieldsRest ind1 fs ++
        '\n' :: ind2 ++ '\x7d' :: rest) = some ((k, v) :: fs, rest)) := by
  intro fuel
  induction fuel with
  | zero =>
    refine ⟨?_, ?_, ?_⟩
    · intro v ind ws rest hcost _ _ _
      have := cost_pos v
      omega
    · intro x xs ind1 ind2 ws rest hcost _ _ _ _
      simp only [costItems] at hcost
      omega
    · intro k v fs ind1 ind2 ws rest hcost _ _ _ _
      simp only [costFields] at hcost
      omega
  | succ g ih =>
    obtain ⟨ih1, ih2, ih3⟩ := ih
    refine ⟨?_, ?_, ?_⟩
    · -- parseVal on a printed value
      intro v ind ws rest hcost hws hind hrest
      rw [parseVal, List.append_assoc, skipWs_ws_append _ _ hws]
      cases v with
      | null =>
        rw [show printVal ind Json.null = ['n', 'u', 'l', 'l'] from rfl]
        simp only [List.cons_append, List.nil_append]
        rw [skipWs_cons_notWs _ _ (by decide)]
        simp [expectChars]
      | bool b =>
        cases b
        · rw [show printVal ind (Json.bool false) = ['f', 'a', 'l', 's', 'e'] from rfl]
          simp only [List.cons_append, List.nil_append]
          rw [skipWs_cons_notWs _ _ (by decide)]
          simp [expectChars]
        · rw [show printVal ind (Json.bool true) = ['t', 'r', 'u', 'e'] from rfl]
          simp only [List.cons_append, List.nil_append]
          rw [skipWs_cons_notWs _ _ (by decide)]
          simp [expectChars]
      | num i =>
        cases i with
        | ofNat n =>
          obtain ⟨c, cs, hc, hd⟩ := natChars_head n
          have hne := digit_ne_starts c hd
          rw [show printVal ind (Json.num (Int.ofNat n)) = natChars n from rfl, hc]
          simp only [List.cons_append]
          rw [skipWs_cons_notWs _ _ (digit_notWs c hd)]
          simp only [hne.1, hne.2.1, hne.2.2.1, hne.2.2.2.1, hne.2.2.2.2.1,
            hne.2.2.2.2.2.1, hne.2.2.2.2.2.2.1, hd, if_false, if_true, ite_false,
            ite_true]
          rw [parseNat_consume n rest c cs hc hrest]
          rfl
        | negSucc m =>
          obtain ⟨c, cs, hc, hd⟩ := natChars_head (m + 1)
          rw [show printVal ind (Json.num (Int.negSucc m)) = '-' :: natChars (m + 1)
            from rfl, hc]
          simp only [List.cons_append]
          rw [skipWs_cons_notWs _ _ (by decide)]
          simp only [reduceIte, hd, if_true]
          rw [parseNat_consume (m + 1) rest c cs hc hrest]
          have hneg : -((m + 1 : Nat) : Int) = Int.negSucc m := by
            rw [Int.negSucc_eq]
            push_cast
            ring
          show some (Json.num (-((m + 1 : Nat) : Int)), rest)
            = some (Json.num (Int.negSucc m), rest)
          rw [hneg]
      | str s =>
        rw [show printVal ind (Json.str s) = '"' :: (escList s.data ++ ['"']) from rfl]
        simp only [List.cons_append, List.append_assoc, List.singleton_append]
        rw [skipWs_cons_notWs _ _ (by decide)]
        simp only [reduceIte]
        rw [parseStringBody_escList]
        simp [strMk_data]
      | arr xs =>
        cases xs with
        | nil =>
          rw [show printVal ind (Json.arr []) = ['[', ']'] from rfl]
          simp only [List.cons_append, List.nil_append]
          rw [skipWs_cons_notWs _ _ (by decide)]
          simp only [reduceIte]
          rw [skipWs_cons_notWs _ _ (by decide)]
          simp
        | cons x xs =>
          simp only [cost] at hcost
          rw [show printVal ind (Json.arr (x :: xs)) =
            '[' :: '\n' :: (ind ++ twoSpaceGap) ++ printVal (ind ++ twoSpaceGap) x ++
              printItemsRest (ind ++ twoSpaceGap) xs ++ '\n' :: ind ++ [']'] from rfl]
          simp only [List.cons_append, List.append_assoc, List.singleton_append,
            List.nil_append]
          rw [skipWs_cons_notWs _ _ (by decide)]
          simp only [reduceIte]
          rw [skipWs_cons_ws _ _ (by decide), skipWs_ws_append _ _ hind,
            skipWs_ws_append _ _ twoSpaceGap_ws]
          obtain ⟨c, cs, hc, hcws, hcrb, _⟩ := printVal_head (ind ++ twoSpaceGap) x
          have hit := ih2 x xs (ind ++ twoSpaceGap) ind [] rest (by omega) (by decide)
            (allWsChars_append _ _ hind twoSpaceGap_ws) hind hrest
          simp only [List.nil_append, List.append_assoc, List.cons_append] at hit
          rw [hc, List.cons_append] at hit ⊢
          rw [skipWs_cons_notWs _ _ hcws]
          simp [hcrb, hit]
      | obj fs =>
        cases fs with
        | nil =>
          rw [show printVal ind (Json.obj []) = ['\x7b', '\x7d'] from rfl]
          simp only [List.cons_append, List.nil_append]
          rw [skipWs_cons_notWs _ _ (by decide)]
          simp only [reduceIte]
          rw [skipWs_cons_notWs _ _ (by decide)]
          simp
        | cons f fs =>
          obtain ⟨k, v⟩ := f
          simp only [cost] at hcost
          rw [show printVal ind (Json.obj ((k, v) :: fs)) =
            '\x7b' :: '\n' :: (ind ++ twoSpaceGap) ++
              printField (ind ++ twoSpaceGap) (k, v) ++
              printFieldsRest (ind ++ twoSpaceGap) fs ++ '\n' :: ind ++ ['\x7d']
            from rfl]
          simp only [List.cons_append, List.append_assoc, List.singleton_append,
            List.nil_append]
          rw [skipWs_cons_notWs _ _ (by decide)]
          simp only [reduceIte]
          rw [skipWs_cons_ws _ _ (by decide), skipWs_ws_append _ _ hind,
            skipWs_ws_append _ _ twoSpaceGap_ws]
          have hfl := ih3 k v fs (ind ++ twoSpaceGap) ind [] rest (by omega) (by decide)
            (allWsChars_append _ _ hind twoSpaceGap_ws) hind hrest
          simp only [List.nil_append, printField, escString, List.cons_append,
            List.append_assoc, List.singleton_append] at hfl
          simp only [printField, escString, List.cons_append, List.append_assoc,
            List.singleton_append, List.nil_append]
          rw [skipWs_cons_notWs _ _ (by decide)]
          simp [hfl]
    · -- parseItems on printed items
      intro x xs ind1 ind2 ws rest hcost hws hind1 hind2 hrest
      simp only [costItems] at hcost
      rw [parseItems]
      have hrest2 : noDigHead (printItemsRest ind1 xs ++ '\n' :: ind2 ++ ']' :: rest)
          = true := by
        cases xs <;> simp [printItemsRest, noDigHead]
      have hv := ih1 x ind1 ws (printItemsRest ind1 xs ++ '\n' :: ind2 ++ ']' :: rest)
        (by omega) hws hind1 hrest2
      simp only [List.append_assoc, List.cons_append, List.nil_append] at hv ⊢
      rw [hv]
      cases xs with
      | nil =>
        simp only [printItemsRest, List.nil_append]
        rw [skipWs_cons_ws _ _ (by decide), skipWs_ws_append _ _ hind2,
          skipWs_cons_notWs _ _ (by decide)]
        simp
      | cons y ys =>
        simp only [printItemsRest, List.cons_append, List.append_assoc]
        rw [skipWs_cons_notWs _ _ (by decide)]
        simp only [reduceIte]
        have hit := ih2 y ys ind1 ind2 ('\n' :: ind1) rest (by omega)
          (allWsChars_cons _ _ (by decide) hind1) hind1 hind2 hrest
        simp only [List.append_assoc, List.cons_append, List.nil_append] at hit
        rw [hit]
    · -- parseFields on printed members
      intro k v fs ind1 ind2 ws rest hcost hws hind1 hind2 hrest
      simp only [costFields] at hcost
      rw [parseFields]
      simp only [printField, escString, List.cons_append, List.append_assoc,
        List.nil_append, List.singleton_append]
      rw [skipWs_ws_append _ _ hws, skipWs_cons_notWs _ _ (by decide)]
      simp only [reduceIte]
      rw [parseStringBody_escList]
      have hrest2 : noDigHead (printFieldsRest ind1 fs ++ '\n' :: ind2 ++ '\x7d' :: rest)
          = true := by
        cases fs <;> simp [printFieldsRest, noDigHead]
      have hv := ih1 v ind1 [' ']
        (printFieldsRest ind1 fs ++ '\n' :: ind2 ++ '\x7d' :: rest)
        (by omega) (by decide) hind1 hrest2
      simp only [List.append_assoc, List.cons_append, List.nil_append,
        List.singleton_append] at hv
      cases fs with
      | nil =>
        simp only [printFieldsRest, List.nil_append] at hv ⊢
        simp [skipWs_cons_notWs, skipWs_cons_ws, skipWs_ws_append, isWsChar,
          hind2, hv, strMk_data]
      | cons f2 fs2 =>
        obtain ⟨k2, v2⟩ := f2
        have hfl := ih3 k2 v2 fs2 ind1 ind2 ('\n' :: ind1) rest (by omega)
          (allWsChars_cons _ _ (by decide) hind1) hind1 hind2 hrest
        simp only [List.append_assoc, List.cons_append, List.nil_append] at hfl
        simp only [printFieldsRest, List.cons_append, List.append_assoc,
          List.nil_append] at hv ⊢
        simp [skipWs_cons_notWs, skipWs_cons_ws, skipWs_ws_append, isWsChar,
          hv, hfl, strMk_data]

/-- The pretty-printed success text parses back to the identical JSON value. -/
theorem jsonParse_stringify (v : Json) : jsonParse (stringify v) = some v := by
  have hmain := (parse_print_master ((printVal [] v).length + 1)).1 v [] [] []
    (by have := cost_le_printVal ([] : List Char) v; omega) rfl rfl rfl
  simp only [List.nil_append, List.append_nil] at hmain
  show parseChars (printVal [] v) = some v
  unfold parseChars
  rw [hmain]
  simp [skipWs]

theorem b64Index_b64Char : ∀ n, n < 64 → b64Index (b64Char n) = some n := by decide

theorem b64Char_ne_eq : ∀ n, n < 64 → b64Char n ≠ '=' := by decide

/-- Decoding inverts encoding on byte sequences. -/
theorem base64_roundtrip :
    ∀ bs : List Nat, (∀ b ∈ bs, b < 256) →
      base64DecodeChars (base64Chars bs) = some bs := by
  intro bs
  induction bs using base64Chars.induct with
  | case1 =>
    intro _
    rfl
  | case2 b1 =>
    intro hmem
    have hb : b1 < 256 := hmem b1 (by simp)
    simp only [base64Chars]
    rw [base64DecodeChars]
    simp only [b64Index_b64Char (b1 / 4) (by omega),
      b64Index_b64Char (b1 % 4 * 16) (by omega), reduceIte, and_self, if_true,
      Option.some.injEq, List.cons.injEq, and_true]
    omega
  | case3 b1 b2 =>
    intro hmem
    have hb1 : b1 < 256 := hmem b1 (by simp)
    have hb2 : b2 < 256 := hmem b2 (by simp)
    simp only [base64Chars]
    rw [base64DecodeChars]
    simp only [b64Index_b64Char (b1 / 4) (by omega),
      b64Index_b64Char (b1 % 4 * 16 + b2 / 16) (by omega),
      if_neg (b64Char_ne_eq (b2 % 16 * 4) (by omega)),
      b64Index_b64Char (b2 % 16 * 4) (by omega), reduceIte,
      Option.some.injEq, List.cons.injEq, and_true]
    refine ⟨by omega, by omega⟩
  | case4 b1 b2 b3 bs ih =>
    intro hmem
    have hb1 : b1 < 256 := hmem b1 (by simp)
    have hb2 : b2 < 256 := hmem b2 (by simp)
    have hb3 : b3 < 256 := hmem b3 (by simp)
    have hih := ih (fun b hb => hmem b (by simp [hb]))
    simp only [base64Chars]
    rw [base64DecodeChars]
    simp only [b64Index_b64Char (b1 / 4) (by omega),
      b64Index_b64Char (b1 % 4 * 16 + b2 / 16) (by omega),
      if_neg (b64Char_ne_eq (b2 % 16 * 4 + b3 / 64) (by omega)),
      b64Index_b64Char (b2 % 16 * 4 + b3 / 64) (by omega),
      if_neg (b64Char_ne_eq (b3 % 64) (by omega)),
      b64Index_b64Char (b3 % 64) (by omega), hih,
      Option.some.injEq, List.cons.injEq]
    refine ⟨by omega, by omega, by omega, trivial⟩

theorem fieldUndefOr_false (args : Option Json) (k t : String) (v : Json)
    (hget : jsGet args k = some v) (hne : jsTypeof (some v) ≠ t) :
    fieldUndefOr args k t = false := by
  simp [fieldUndefOr, hget, hne]

/-- C1: for each of the four query operations, on a successful HTTP response
with JSON body `data`, `callTool` returns (does not throw) an envelope with
exactly one text content block whose text is `stringify data` — the body
pretty-printed with two-space indentation — with the failure flag unset, and
parsing that text yields the identical JSON value. -/
theorem claim_C1_success_roundtrip (data : Json) (args : Option Json) :
    jsonParse (stringify data) = some data ∧
    (isValidPackageSearchArgs args = true →
      (callTool "package_search" args (.ok data)).1 =
        .ok { content := [{ type := "text", text := stringify data }],
              isError := false }) ∧
    (isValidPackageShowArgs args = true →
      (callTool "package_show" args (.ok data)).1 =
        .ok { content := [{ type := "text", text := stringify data }],
              isError := false }) ∧
    (isValidGroupListArgs args = true →
      (callTool "group_list" args (.ok data)).1 =
        .ok { content := [{ type := "text", text := stringify data }],
              isError := false }) ∧
    (isValidTagListArgs args = true →
      (callTool "tag_list" args (.ok data)).1 =
        .ok { content := [{ type := "text", text := stringify data }],
              isError := false }) := by
  refine ⟨jsonParse_stringify data, ?_, ?_, ?_, ?_⟩ <;> intro hv <;>
    simp [callTool, hv, packageSearch, packageShow, groupList, tagList]

theorem claim_C1_success_roundtrip_witness :
    jsonParse (stringify ckanSample) = some ckanSample ∧
    (callTool "package_search" (some (.obj [("id", .str "x")])) (.ok ckanSample)).1 =
      .ok { content := [{ type := "text", text := stringify ckanSample }],
            isError := false } ∧
    (callTool "package_show" (some (.obj [("id", .str "x")])) (.ok ckanSample)).1 =
      .ok { content := [{ type := "text", text := stringify ckanSample }],
            isError := false } ∧
    (callTool "group_list" (some (.obj [("id", .str "x")])) (.ok ckanSample)).1 =
      .ok { content := [{ type := "text", text := stringify ckanSample }],
            isError := false } ∧
    (callTool "tag_list" (some (.obj [("id", .str "x")])) (.ok ckanSample)).1 =
      .ok { content := [{ type := "text", text := stringify ckanSample }],
            isError := false } := by
  have h := claim_C1_success_roundtrip ckanSample (some (.obj [("id", .str "x")]))
  exact ⟨h.1, h.2.1 (by decide), h.2.2.1 (by decide), h.2.2.2.1 (by decide),
    h.2.2.2.2 (by decide)⟩

/-- C2 counterexample: an argument bag whose only field name is outside the
schema of package_search passes validation and the network request is still
issued, so unknown fields are not rejected before the network call. -/
theorem claim_C2_counterexample :
    isValidPackageSearchArgs (some (.obj [("definitely_unknown", .str "x")])) = true ∧
    (callTool "package_search" (some (.obj [("definitely_unknown", .str "x")]))
      (.ok .null)).2.length = 1 := by
  constructor
  · decide
  · rfl

/-- C2 amended: for every operation, an argument bag in which a
schema-listed field holds a value of the wrong JS type is rejected with a
protocol-level invalid-params error before any network call; unknown fields
are not checked and do not cause rejection. -/
theorem claim_C2_amended (args : Option Json) (net : CallOutcome) :
    (∀ k t, (k, t) ∈ [("q", "string"), ("sort", "string"), ("rows", "number"),
        ("start", "number")] →
      ∀ v, jsGet args k = some v → jsTypeof (some v) ≠ t →
      callTool "package_search" args net =
        (.error ⟨.invalidParams, "Invalid package_search arguments"⟩, [])) ∧
    (∀ v, jsGet args "id" = some v → jsTypeof (some v) ≠ "string" →
      callTool "package_show" args net =
        (.error ⟨.invalidParams, "Invalid package_show arguments"⟩, [])) ∧
    (∀ k t, (k, t) ∈ [("order_by", "string"), ("limit", "number"),
        ("offset", "number"), ("all_fields", "boolean")] →
      ∀ v, jsGet args k = some v → jsTypeof (some v) ≠ t →
      callTool "group_list" args net =
        (.error ⟨.invalidParams, "Invalid group_list arguments"⟩, [])) ∧
    (∀ k t, (k, t) ∈ [("query", "string"), ("all_fields", "boolean")] →
      ∀ v, jsGet args k = some v → jsTypeof (some v) ≠ t →
      callTool "tag_list" args net =
        (.error ⟨.invalidParams, "Invalid tag_list arguments"⟩, [])) := by
  refine ⟨?_, ?_, ?_, ?_⟩
  · intro k t hkt v hget hne
    fin_cases hkt <;>
      simp [callTool, isValidPackageSearchArgs,
        fieldUndefOr_false args _ _ v hget hne]
  · intro v hget hne
    simp [callTool, isValidPackageShowArgs, hget, hne]
  · intro k t hkt v hget hne
    fin_cases hkt <;>
      simp [callTool, isValidGroupListArgs,
        fieldUndefOr_false args _ _ v hget hne]
  · intro k t hkt v hget hne
    fin_cases hkt <;>
      simp [callTool, isValidTagListArgs,
        fieldUndefOr_false args _ _ v hget hne]

theorem claim_C2_amended_witness :
    callTool "package_search" (some (.obj [("q", .num 1)])) (.ok .null) =
      (.error ⟨.invalidParams, "Invalid package_search arguments"⟩, []) ∧
    callTool "package_show" (some (.obj [("id", .num 1)])) (.ok .null) =
      (.error ⟨.invalidParams, "Invalid package_show arguments"⟩, []) ∧
    callTool "group_list" (some (.obj [("limit", .str "ten")])) (.ok .null) =
      (.error ⟨.invalidParams, "Invalid group_list arguments"⟩, []) ∧
    callTool "tag_list" (some (.obj [("all_fields", .str "yes")])) (.ok .null) =
      (.error ⟨.invalidParams, "Invalid tag_list arguments"⟩, []) := by
  refine ⟨?_, ?_, ?_, ?_⟩
  · exact (claim_C2_amended (some (.obj [("q", .num 1)])) (.ok .null)).1
      "q" "string" (by decide) (.num 1) rfl (by decide)
  · exact (claim_C2_amended (some (.obj [("id", .num 1)])) (.ok .null)).2.1
      (.num 1) rfl (by decide)
  · exact (claim_C2_amended (some (.obj [("limit", .str "ten")])) (.ok .null)).2.2.1
      "limit" "number" (by decide) (.str "ten") rfl (by decide)
  · exact (claim_C2_amended (some (.obj [("all_fields", .str "yes")])) (.ok .null)).2.2.2
      "all_fields" "boolean" (by decide) (.str "yes") rfl (by decide)

/-- C3: when the resource GET fails, the handler computes the same summary
the query operations use (`handleAxiosError`) and then re-raises the
original failure as a protocol-level error — it never returns a success
value — while a query operation given the identical failure swallows it
into a normal envelope `.ok (handleAxiosError e)`. -/
theorem claim_C3_resource_error_rethrown (uri : String) (suf urlChars : List Char)
    (e : Caught) (args : Option Json)
    (hm : uriMatch uri = some suf) (hd : percentDecode suf = some urlChars)
    (hv : isValidPackageSearchArgs args = true) :
    readResource uri (.exn e) =
      (.error (.rethrown e), [{ url := String.mk urlChars, params := none }]) ∧
    callTool "package_search" args (.exn e) =
      (.ok (handleAxiosError e),
       [{ url := BASE_URL ++ "/action/package_search", params := args }]) := by
  constructor
  · simp [readResource, hm, hd]
  · simp [callTool, hv, packageSearch]

theorem claim_C3_resource_error_rethrown_witness :
    readResource "datagov://resource/https%3A%2F%2Fexample.com%2Ffile.csv"
        (.exn (.other "boom")) =
      (.error (.rethrown (.other "boom")),
       [{ url := "https://example.com/file.csv", params := none }]) ∧
    callTool "package_search" (some (.obj [])) (.exn (.other "boom")) =
      (.ok (handleAxiosError (.other "boom")),
       [{ url := BASE_URL ++ "/action/package_search",
          params := some (.obj []) }]) := by
  exact claim_C3_resource_error_rethrown
    "datagov://resource/https%3A%2F%2Fexample.com%2Ffile.csv"
    ("https%3A%2F%2Fexample.com%2Ffile.csv".data)
    ("https://example.com/file.csv".data)
    (.other "boom") (some (.obj [])) rfl rfl rfl

/-- C4: a query operation whose HTTP call fails with a server response
returns (never throws) an envelope with the failure flag set and one text
block whose text carries the transport message, the HTTP status code, and
the server-supplied detail extracted from the nested error field. -/
theorem claim_C4_http_failure_envelope (args : Option Json) (msg detail : String)
    (status : Nat) (body errv : Json)
    (hv : isValidPackageShowArgs args = true) (hdetail : detail ≠ "")
    (htruthy : jsTruthy body = true)
    (hErr : jsGet (some body) "error" = some errv)
    (hMsg : jsGet (some errv) "message" = some (.str detail)) :
    (callTool "package_show" args
        (.exn (.axios { message := msg,
                        response := some { status := status, data := some body },
                        requestMade := true }))).1 =
      .ok { content :=
              [{ type := "text",
                 text := "Data.gov API error: " ++ msg ++ "\nStatus: " ++
                   toString status ++ "\nMessage: " ++ detail }],
            isError := true } ∧
    (∃ a b, "Data.gov API error: " ++ msg ++ "\nStatus: " ++ toString status ++
        "\nMessage: " ++ detail = a ++ toString status ++ b) ∧
    (∃ a b, "Data.gov API error: " ++ msg ++ "\nStatus: " ++ toString status ++
        "\nMessage: " ++ detail = a ++ detail ++ b) := by
  have hts : truthyOpt (some (Json.str detail)) = true := by
    simp [truthyOpt, jsTruthy, hdetail]
  refine ⟨?_, ?_, ?_⟩
  · simp [callTool, hv, packageShow, handleAxiosError, hErr, hMsg, htruthy, hts,
      displayOpt, jsDisplay]
  · exact ⟨"Data.gov API error: " ++ msg ++ "\nStatus: ",
      "\nMessage: " ++ detail, by simp [String.append_assoc]⟩
  · exact ⟨"Data.gov API error: " ++ msg ++ "\nStatus: " ++ toString status ++
      "\nMessage: ", "", by simp [String.append_assoc]⟩

theorem claim_C4_http_failure_envelope_witness :
    (callTool "package_show" (some (.obj [("id", .str "x")]))
        (.exn (.axios { message := "Request failed with status code 404",
                        response := some { status := 404,
                                           data := some (.obj [("success", .bool false),
                                             ("error", .obj [("message", .str "Not found")])]) },
                        requestMade := true }))).1 =
      .ok { content :=
              [{ type := "text",
                 text := "Data.gov API error: Request failed with status code 404" ++
                   "\nStatus: " ++ toString 404 ++ "\nMessage: " ++ "Not found" }],
            isError := true } := by
  have h := claim_C4_http_failure_envelope (some (.obj [("id", .str "x")]))
    "Request failed with status code 404" "Not found" 404
    (.obj [("success", .bool false), ("error", .obj [("message", .str "Not found")])])
    (.obj [("message", .str "Not found")])
    (by decide) (by decide) (by decide) rfl rfl
  simpa using h.1

/-- C5: show-package invoked with a bag lacking a string-valued `id` (for
example the empty object) fails with a protocol-level invalid-params error
and performs zero network calls; for every operation, a validation failure
yields the protocol error with no network activity. -/
theorem claim_C5_show_missing_id (net : CallOutcome) :
    (∀ args, jsTypeof (jsGet args "id") ≠ "string" →
      callTool "package_show" args net =
        (.error ⟨.invalidParams, "Invalid package_show arguments"⟩, [])) ∧
    callTool "package_show" (some (.obj [])) net =
      (.error ⟨.invalidParams, "Invalid package_show arguments"⟩, []) ∧
    (∀ args, isValidPackageSearchArgs args = false →
      callTool "package_search" args net =
        (.error ⟨.invalidParams, "Invalid package_search arguments"⟩, [])) ∧
    (∀ args, isValidPackageShowArgs args = false →
      callTool "package_show" args net =
        (.error ⟨.invalidParams, "Invalid package_show arguments"⟩, [])) ∧
    (∀ args, isValidGroupListArgs args = false →
      callTool "group_list" args net =
        (.error ⟨.invalidParams, "Invalid group_list arguments"⟩, [])) ∧
    (∀ args, isValidTagListArgs args = false →
      callTool "tag_list" args net =
        (.error ⟨.invalidParams, "Invalid tag_list arguments"⟩, [])) := by
  refine ⟨?_, ?_, ?_, ?_, ?_, ?_⟩
  · intro args hne
    simp [callTool, isValidPackageShowArgs, hne]
  · simp [callTool, isValidPackageShowArgs, jsGet, lookupField, jsTypeof]
  · intro args hval
    simp [callTool, hval]
  · intro args hval
    simp [callTool, hval]
  · intro args hval
    simp [callTool, hval]
  · intro args hval
    simp [callTool, hval]

theorem claim_C5_show_missing_id_witness :
    callTool "package_show" (some (.obj [])) (.ok ckanSample) =
      (.error ⟨.invalidParams, "Invalid package_show arguments"⟩, []) ∧
    callTool "package_search" (some (.str "nope")) (.ok ckanSample) =
      (.error ⟨.invalidParams, "Invalid package_search arguments"⟩, []) := by
  exact ⟨(claim_C5_show_missing_id (.ok ckanSample)).2.1,
    (claim_C5_show_missing_id (.ok ckanSample)).2.2.1 (some (.str "nope")) (by decide)⟩

/-- C6: an operation name outside the four advertised tools fails with a
protocol-level method-not-found error, performs zero network calls, and the
outcome does not depend on the argument bag (no validation is reached). -/
theorem claim_C6_unknown_tool (name : String) (args : Option Json) (net : CallOutcome)
    (h1 : name ≠ "package_search") (h2 : name ≠ "package_show")
    (h3 : name ≠ "group_list") (h4 : name ≠ "tag_list") :
    callTool name args net =
      (.error ⟨.methodNotFound, "Unknown tool: " ++ name⟩, []) ∧
    (∀ args2, callTool name args2 net = callTool name args net) := by
  constructor
  · simp [callTool, h1, h2, h3, h4]
  · intro args2
    simp [callTool, h1, h2, h3, h4]

theorem claim_C6_unknown_tool_witness :
    callTool "does_not_exist" none (.ok ckanSample) =
      (.error ⟨.methodNotFound, "Unknown tool: " ++ "does_not_exist"⟩, []) ∧
    (∀ args2, callTool "does_not_exist" args2 (.ok ckanSample) =
      callTool "does_not_exist" none (.ok ckanSample)) := by
  exact claim_C6_unknown_tool "does_not_exist" none (.ok ckanSample)
    (by decide) (by decide) (by decide) (by decide)

/-- C7: a resource-read whose URI matches `datagov://resource/<suffix>`
issues a GET to exactly the percent-decoded suffix and, on success, returns
one text content item `data:<content-type>;base64,<payload>` whose payload
base64-decodes to exactly the bytes served. -/
theorem claim_C7_resource_fetch (uri : String) (suf urlChars : List Char)
    (ct : String) (body : List Nat)
    (hm : uriMatch uri = some suf) (hd : percentDecode suf = some urlChars)
    (hbytes : ∀ b ∈ body, b < 256) :
    readResource uri (.ok ct body) =
      (.ok [{ uri := uri,
              text := "data:" ++ ct ++ ";base64," ++ base64Encode body }],
       [{ url := String.mk urlChars, params := none }]) ∧
    base64Decode (base64Encode body) = some body := by
  constructor
  · simp [readResource, hm, hd]
  · exact base64_roundtrip body hbytes

theorem claim_C7_resource_fetch_witness :
    readResource "datagov://resource/https%3A%2F%2Fexample.com%2Ffile.csv"
        (.ok "text/csv" [104, 105, 10]) =
      (.ok [{ uri := "datagov://resource/https%3A%2F%2Fexample.com%2Ffile.csv",
              text := "data:" ++ "text/csv" ++ ";base64," ++
                base64Encode [104, 105, 10] }],
       [{ url := "https://example.com/file.csv", params := none }]) ∧
    base64Decode (base64Encode [104, 105, 10]) = some [104, 105, 10] := by
  exact claim_C7_resource_fetch
    "datagov://resource/https%3A%2F%2Fexample.com%2Ffile.csv"
    ("https%3A%2F%2Fexample.com%2Ffile.csv".data)
    ("https://example.com/file.csv".data)
    "text/csv" [104, 105, 10] rfl rfl (by decide)

/-- C8: a resource-read whose URI does not match the
`datagov://resource/<suffix>` pattern fails immediately with a
protocol-level invalid-request error and issues no network call. -/
theorem claim_C8_bad_uri (uri : String) (net : ResourceOutcome)
    (h : uriMatch uri = none) :
    readResource uri net =
      (.error (.mcp ⟨.invalidRequest, "Invalid URI format: " ++ uri⟩), []) := by
  simp [readResource, h]

theorem claim_C8_bad_uri_witness :
    readResource "https://example.com/file.csv" (.ok "text/csv" []) =
      (.error (.mcp ⟨.invalidRequest,
        "Invalid URI format: " ++ "https://example.com/file.csv"⟩), []) := by
  exact claim_C8_bad_uri "https://example.com/file.csv" (.ok "text/csv" []) rfl

/-- C9: the tool catalog is a constant (the handler closes over no state, so
repeated calls return the same value): it has exactly four entries whose
names are, in order, package_search, package_show, group_list, tag_list. -/
theorem claim_C9_listTools :
    listTools.length = 4 ∧
    listTools.map (fun t => t.name) =
      ["package_search", "package_show", "group_list", "tag_list"] := by
  constructor
  · rfl
  · rfl

/-- C10: for each of the four query operations, an absent argument bag
(undefined) or a non-object value (string, number, boolean, null) fails
with a protocol-level invalid-params error and performs no network call;
the empty object, by contrast, passes validation for the three operations
whose fields are all optional. -/
theorem claim_C10_nonobject_args (net : CallOutcome) (args : Option Json)
    (h : args = none ∨ (∃ s, args = some (.str s)) ∨ (∃ i, args = some (.num i)) ∨
         (∃ b, args = some (.bool b)) ∨ args = some .null) :
    (callTool "package_search" args net =
      (.error ⟨.invalidParams, "Invalid package_search arguments"⟩, []) ∧
    callTool "package_show" args net =
      (.error ⟨.invalidParams, "Invalid package_show arguments"⟩, []) ∧
    callTool "group_list" args net =
      (.error ⟨.invalidParams, "Invalid group_list arguments"⟩, []) ∧
    callTool "tag_list" args net =
      (.error ⟨.invalidParams, "Invalid tag_list arguments"⟩, [])) ∧
    (isValidPackageSearchArgs (some (.obj [])) = true ∧
     isValidGroupListArgs (some (.obj [])) = true ∧
     isValidTagListArgs (some (.obj [])) = true) := by
  refine ⟨?_, by decide, by decide, by decide⟩
  rcases h with h | ⟨s, h⟩ | ⟨i, h⟩ | ⟨b, h⟩ | h <;> subst h <;>
    refine ⟨?_, ?_, ?_, ?_⟩ <;>
    simp [callTool, isValidPackageSearchArgs, isValidPackageShowArgs,
      isValidGroupListArgs, isValidTagListArgs, jsTypeof, isJsNull]

theorem claim_C10_nonobject_args_witness :
    callTool "package_search" none (.ok ckanSample) =
      (.error ⟨.invalidParams, "Invalid package_search arguments"⟩, []) ∧
    callTool "package_show" (some (.num 3)) (.ok ckanSample) =
      (.error ⟨.invalidParams, "Invalid package_show arguments"⟩, []) ∧
    callTool "group_list" (some .null) (.ok ckanSample) =
      (.error ⟨.invalidParams, "Invalid group_list arguments"⟩, []) ∧
    callTool "tag_list" (some (.bool true)) (.ok ckanSample) =
      (.error ⟨.invalidParams, "Invalid tag_list arguments"⟩, []) := by
  refine ⟨?_, ?_, ?_, ?_⟩
  · exact (claim_C10_nonobject_args (.ok ckanSample) none (Or.inl rfl)).1.1
  · exact (claim_C10_nonobject_args (.ok ckanSample) (some (.num 3))
      (Or.inr (Or.inr (Or.inl ⟨3, rfl⟩)))).1.2.1
  · exact (claim_C10_nonobject_args (.ok ckanSample) (some .null)
      (Or.inr (Or.inr (Or.inr (Or.inr rfl))))).1.2.2.1
  · exact (claim_C10_nonobject_args (.ok ckanSample) (some (.bool true))
      (Or.inr (Or.inr (Or.inr (Or.inl ⟨true, rfl⟩))))).1.2.2.2
